import Mathlib

/-!
Verification of the indexing core of an Ethereum-family blockchain indexer
(unfinalized-block tracking, batched JSON-RPC provider, dictionary query
construction, dictionary v1 query clamping, HTTP fetch/redirect loop and ABI
log/transaction parsing) against its natural-language specification.

The TypeScript sources are shallowly embedded: every stateful method becomes a
pure function on an explicit state record, JavaScript truthiness is modelled
explicitly, `undefined` vs `null` is modelled with nested `Option`s, and
external collaborators (the RPC node, the filesystem, keccak hashing) become
function-valued parameters.
-/

namespace Js

/-- JavaScript truthiness of a possibly-undefined string: an absent value and
the empty string are falsy, every other string is truthy. -/
def strTruthy : Option String → Bool
  | some s => s ≠ ""
  | none => false

/-- JavaScript truthiness of an array value: an array object is always truthy,
regardless of its contents. -/
def arrayTruthy (_ : List α) : Bool := true

/-- `String.prototype.toLowerCase` restricted to the character-wise lowering
used for hex addresses and topic strings. -/
def toLowerCase (s : String) : String := ⟨s.data.map Char.toLower⟩

end Js

namespace UnfinalizedBlocks

/-- An Ethereum block header as used by the tracker: height, own hash and
parent hash (`Block` from ethers, restricted to the consulted fields). -/
structure Header where
  number : Nat
  hash : String
  parentHash : String
deriving Repr, DecidableEq

/-- A value written to the metadata store (`setMetadata` receives a JSON
string for the unfinalized list, a number for the verified height, or null). -/
inductive MetaVal where
  | blocks (bs : List (Nat × String))
  | num (n : Nat)
  | null
deriving Repr, DecidableEq

/-- The mutable state of `UnfinalizedBlocksService`, plus the log of metadata
upserts issued within the current transaction. -/
structure UBState where
  unfinalizedBlocks : List (Nat × String)
  finalizedHeader : Header
  lastCheckedBlockHeight : Option Nat
  metadata : List (String × MetaVal)
deriving Repr, DecidableEq

/-- `api.getBlockByHeightOrHash`: the RPC node answers either a height (the
`typeof heightOrHash === 'number'` branch) or a block hash. -/
structure ChainApi where
  byHeight : Nat → Header
  byHash : String → Header

/-- `saveUnfinalizedBlocks`: upsert the serialized list under the
`unfinalizedBlocks` metadata key. -/
def saveUnfinalizedBlocks (ub : List (Nat × String)) (s : UBState) : UBState :=
  { s with metadata := s.metadata ++ [("unfinalizedBlocks", MetaVal.blocks ub)] }

/-- `saveLastFinalizedVerifiedHeight`: upsert the height under the
`lastFinalizedVerifiedHeight` metadata key. -/
def saveLastFinalizedVerifiedHeight (height : Nat) (s : UBState) : UBState :=
  { s with metadata := s.metadata ++ [("lastFinalizedVerifiedHeight", MetaVal.num height)] }

/-- Outcome of `registerUnfinalizedBlock`: either the process exits fatally
(`process.exit(1)` on a non-sequential height) or the state after the call. -/
inductive RegisterResult where
  | fatal
  | ok (s : UBState)
deriving Repr, DecidableEq

/-- `registerUnfinalizedBlock(blockNumber, hash, tx)`: drop heights at or
below the finalized height, exit fatally when the height is not the successor
of the last recorded height, otherwise append and persist the list. -/
def registerUnfinalizedBlock (blockNumber : Nat) (hash : String) (s : UBState) :
    RegisterResult :=
  if blockNumber ≤ s.finalizedHeader.number then .ok s
  else
    match s.unfinalizedBlocks.getLast? with
    | some lastRec =>
      if lastRec.1 + 1 ≠ blockNumber then .fatal
      else
        let ub := s.unfinalizedBlocks ++ [(blockNumber, hash)]
        .ok (saveUnfinalizedBlocks ub { s with unfinalizedBlocks := ub })
    | none =>
      let ub := s.unfinalizedBlocks ++ [(blockNumber, hash)]
      .ok (saveUnfinalizedBlocks ub { s with unfinalizedBlocks := ub })

/-- `removeFinalized(blockHeight)`: find the index of the record whose height
equals `blockHeight` and keep only the records after it; when no record sits
at exactly `blockHeight`, nothing is removed. -/
def removeFinalized (blockHeight : Nat) (s : UBState) : UBState :=
  match s.unfinalizedBlocks.findIdx? (fun p => p.1 = blockHeight) with
  | some index => { s with unfinalizedBlocks := s.unfinalizedBlocks.drop (index + 1) }
  | none => s

/-- `deleteFinalizedBlock(tx)`: when a strictly smaller checked height is on
record, remove finalized records and persist both metadata keys; in every
case set `lastCheckedBlockHeight` to the finalized height. -/
def deleteFinalizedBlock (s : UBState) : UBState :=
  let s1 :=
    match s.lastCheckedBlockHeight with
    | some lc =>
      if lc < s.finalizedHeader.number then
        saveUnfinalizedBlocks
          (removeFinalized s.finalizedHeader.number s).unfinalizedBlocks
          (saveLastFinalizedVerifiedHeight s.finalizedHeader.number
            (removeFinalized s.finalizedHeader.number s))
      else s
    | none => s
  { s1 with lastCheckedBlockHeight := some s.finalizedHeader.number }

/-- `getClosestRecord(blockHeight)`: the largest recorded height at or below
`blockHeight`, found by reversing the (ascending) list. -/
def getClosestRecord (blockHeight : Nat) (s : UBState) : Option (Nat × String) :=
  s.unfinalizedBlocks.reverse.find? (fun p => p.1 ≤ blockHeight)

/-- The `while (lastVerifiableBlock.blockHeight !== header.number)` loop of
`hasForked`, walking the parent-hash chain down to the target height. The
fuel argument makes the recursion total; `hasForked` passes the height gap,
which is exactly the number of steps on a chain whose parent link decreases
the height by one. -/
def walkToHeight (api : ChainApi) : Nat → Nat → Header → Header
  | 0, _, header => header
  | fuel + 1, target, header =>
    if header.number = target then header
    else walkToHeight api fuel target (api.byHash header.parentHash)

/-- `hasForked()`: no record at or below the finalized height means no fork;
a record at exactly the finalized height is compared by hash; otherwise the
canonical header at the record's height is obtained (directly when the gap
exceeds 200, else by walking parent hashes) and compared by hash. -/
def hasForked (api : ChainApi) (s : UBState) : Bool :=
  match getClosestRecord s.finalizedHeader.number s with
  | none => false
  | some lastVerifiableBlock =>
    if lastVerifiableBlock.1 = s.finalizedHeader.number then
      lastVerifiableBlock.2 ≠ s.finalizedHeader.hash
    else
      let header :=
        if s.finalizedHeader.number - lastVerifiableBlock.1 > 200 then
          api.byHeight lastVerifiableBlock.1
        else
          walkToHeight api (s.finalizedHeader.number - lastVerifiableBlock.1)
            lastVerifiableBlock.1 s.finalizedHeader
      header.hash ≠ lastVerifiableBlock.2

/-- The `for (const [block, hash] of bestVerifiableBlocks.reverse())` loop of
`getLastCorrectFinalizedBlock`. Note that the reassignment of the checked
header fetches `finalizedHeader.parentHash` — the parent of the finalized
header — on every iteration, exactly as the source does. -/
def lastCorrectLoop (api : ChainApi) (finalizedHeader : Header) :
    List (Nat × String) → Header → Option Nat
  | [], _ => none
  | (block, hash) :: rest, checkingHeader =>
    if hash = checkingHeader.hash ∨ hash = checkingHeader.parentHash then some block
    else lastCorrectLoop api finalizedHeader rest (api.byHash finalizedHeader.parentHash)

/-- `getLastCorrectFinalizedBlock()`: filter the records at or below the
finalized height, walk them in reverse looking for a hash match, and fall
back to `lastCheckedBlockHeight` when none matches. -/
def getLastCorrectFinalizedBlock (api : ChainApi) (s : UBState) : Option Nat :=
  let bestVerifiableBlocks :=
    s.unfinalizedBlocks.filter (fun p => p.1 ≤ s.finalizedHeader.number)
  match lastCorrectLoop api s.finalizedHeader bestVerifiableBlocks.reverse
      s.finalizedHeader with
  | some block => some block
  | none => s.lastCheckedBlockHeight

/-- `getLastCorrectFinalizedBlock` as the specification describes it: the
checked header is replaced by the parent of the *current* checked header, so
the walk steps down one canonical block per record. Used to compare the
source's behaviour against the specified one. -/
def lastCorrectLoopSpec (api : ChainApi) :
    List (Nat × String) → Header → Option Nat
  | [], _ => none
  | (block, hash) :: rest, checkingHeader =>
    if hash = checkingHeader.hash ∨ hash = checkingHeader.parentHash then some block
    else lastCorrectLoopSpec api rest (api.byHash checkingHeader.parentHash)

/-- Specification-side variant of `getLastCorrectFinalizedBlock` built on
`lastCorrectLoopSpec`. -/
def getLastCorrectFinalizedBlockSpec (api : ChainApi) (s : UBState) : Option Nat :=
  let bestVerifiableBlocks :=
    s.unfinalizedBlocks.filter (fun p => p.1 ≤ s.finalizedHeader.number)
  match lastCorrectLoopSpec api bestVerifiableBlocks.reverse s.finalizedHeader with
  | some block => some block
  | none => s.lastCheckedBlockHeight

/-- `processUnfinalizedBlocks(block, tx)`: optionally register the new block
(which can exit fatally), then either delete confirmed-finalized records and
return null, or return the rewind height from the fork walk. The `Except`
error is the fatal process exit. -/
def processUnfinalizedBlocks (api : ChainApi) (block : Option (Nat × String))
    (s : UBState) : Except Unit (Option Nat × UBState) :=
  let registered : Except Unit UBState :=
    match block with
    | some b =>
      match registerUnfinalizedBlock b.1 b.2 s with
      | .fatal => .error ()
      | .ok s' => .ok s'
    | none => .ok s
  match registered with
  | .error e => .error e
  | .ok s' =>
    if hasForked api s' then .ok (getLastCorrectFinalizedBlock api s', s')
    else .ok (none, deleteFinalizedBlock s')

/-- A concrete canonical chain for exercising `processUnfinalizedBlocks`:
blocks 5, 6, 7 with hashes `a5`, `c6`, `c7` linked by parent hashes. -/
def chainA : ChainApi where
  byHeight := fun n =>
    if n = 5 then ⟨5, "a5", "c4"⟩
    else if n = 6 then ⟨6, "c6", "a5"⟩
    else if n = 7 then ⟨7, "c7", "c6"⟩
    else ⟨0, "", ""⟩
  byHash := fun h =>
    if h = "a5" then ⟨5, "a5", "c4"⟩
    else if h = "c6" then ⟨6, "c6", "a5"⟩
    else if h = "c7" then ⟨7, "c7", "c6"⟩
    else ⟨0, "", ""⟩

/-- Tracker state whose single record (height 5, hash `a5`) agrees with
`chainA` but lies strictly below the finalized height 7. -/
def s0A : UBState :=
  { unfinalizedBlocks := [(5, "a5")]
    finalizedHeader := ⟨7, "c7", "c6"⟩
    lastCheckedBlockHeight := some 3
    metadata := [] }

/-- A concrete canonical chain for the fork walk: canonical blocks 4–7 have
hashes `c4`–`c7`; the indexer recorded a fork `x5`, `x6`, `x7` above height 4. -/
def chainB : ChainApi where
  byHeight := fun n =>
    if n = 4 then ⟨4, "c4", "c3"⟩
    else if n = 5 then ⟨5, "c5", "c4"⟩
    else if n = 6 then ⟨6, "c6", "c5"⟩
    else if n = 7 then ⟨7, "c7", "c6"⟩
    else ⟨0, "", ""⟩
  byHash := fun h =>
    if h = "c4" then ⟨4, "c4", "c3"⟩
    else if h = "c5" then ⟨5, "c5", "c4"⟩
    else if h = "c6" then ⟨6, "c6", "c5"⟩
    else if h = "c7" then ⟨7, "c7", "c6"⟩
    else ⟨0, "", ""⟩

/-- Tracker state that followed the fork of `chainB`: record 4 matches the
canonical chain, records 5–7 carry forked hashes; the finalized header is the
canonical block 7. -/
def s0B : UBState :=
  { unfinalizedBlocks := [(4, "c4"), (5, "x5"), (6, "x6"), (7, "x7")]
    finalizedHeader := ⟨7, "c7", "c6"⟩
    lastCheckedBlockHeight := some 3
    metadata := [] }

end UnfinalizedBlocks

namespace BatchProvider

/-- `batchSizeStatus` of `JsonRpcBatchProvider`: probing upward or frozen. -/
inductive BatchSizeStatus where
  | testing
  | determined
deriving Repr, DecidableEq

/-- The adaptive-batching state of `JsonRpcBatchProvider`: the current batch
size and whether it is still being probed. -/
structure ProviderState where
  batchSize : Int
  batchSizeStatus : BatchSizeStatus
deriving Repr, DecidableEq

/-- Field initializers of `JsonRpcBatchProvider`: `batchSize = 1`,
`batchSizeStatus = 'testing'`. -/
def initialProviderState : ProviderState := ⟨1, .testing⟩

/-- How one `fetchJson` round of `runRequests` can go, as far as the
batch-size state machine observes it: the fetch rejects; it resolves with a
non-array value; it resolves with an array containing a payload for every
request id; or it resolves with an array in which some request id is missing
(so indexing the result map yields `undefined` and reading `.error` on it
throws inside the dispatch loop). -/
inductive BatchResponse where
  | fetchError
  | nonArray
  | arrayComplete
  | arrayMissingId
deriving Repr, DecidableEq

/-- The `.catch` handler of `runRequests`: while testing, decrement the batch
size and freeze the status as determined; otherwise leave the state alone. -/
def catchBranch (s : ProviderState) : ProviderState :=
  if s.batchSizeStatus = .testing then ⟨s.batchSize - 1, .determined⟩ else s

/-- The batch-size state transition of `runRequests` for one batch. A
non-array response rejects the pending calls via the early `return` and never
reaches the increment or the catch handler. An array response increments the
size while testing; if a request id is then missing from the result map, the
dispatch loop throws and the catch handler runs on the already-incremented
state. -/
def runRequests (s : ProviderState) (r : BatchResponse) : ProviderState :=
  match r with
  | .fetchError => catchBranch s
  | .nonArray => s
  | .arrayComplete =>
    if s.batchSizeStatus = .testing then ⟨s.batchSize + 1, s.batchSizeStatus⟩ else s
  | .arrayMissingId =>
    catchBranch
      (if s.batchSizeStatus = .testing then ⟨s.batchSize + 1, s.batchSizeStatus⟩ else s)

end BatchProvider

namespace EthDictionaryV2

/-- `SubqlEthereumProcessorOptions`: the data-source options consulted by the
dictionary query builder. -/
structure SubqlEthereumProcessorOptions where
  abi : Option String := none
  address : Option String := none
deriving Repr, DecidableEq

/-- The argument of `extractOptionAddresses`: either one (possibly undefined)
options object or the `groupedOptions` array. -/
inductive DsOptionsArg where
  | single (opts : Option SubqlEthereumProcessorOptions)
  | grouped (optsList : List SubqlEthereumProcessorOptions)
deriving Repr, DecidableEq

/-- `extractOptionAddresses(dsOptions)`: for an options array, collect the
truthy addresses and keep them only when there is at least one and no more
than `query-address-limit` (not lowercased on this path); for a single
options object, the lowercased address when it is truthy. -/
def extractOptionAddresses (queryAddressLimit : Nat) (dsOptions : DsOptionsArg) :
    List String :=
  match dsOptions with
  | .grouped optsList =>
    let addresses :=
      ((optsList.map (fun o => o.address)).filterMap id).filter (fun a => a ≠ "")
    if addresses.length ≠ 0 ∧ addresses.length ≤ queryAddressLimit then addresses
    else []
  | .single opts =>
    match opts with
    | some o =>
      if Js.strTruthy o.address then [Js.toLowerCase (o.address.getD "")] else []
    | none => []

/-- A handler filter. The source stores one untyped `filter` object and casts
it per handler kind, so a single structure carries every possible field.
`to` distinguishes absent (`none`), explicit null (`some none`) and a string
(`some (some s)`). -/
structure SubqlHandlerFilter where
  topics : Option (List (Option String)) := none
  from_ : Option String := none
  to_ : Option (Option String) := none
  function : Option String := none
  modulo : Option Nat := none
deriving Repr, DecidableEq

/-- `EthDictionaryTxConditions`: the transaction condition keys; a key is
absent when its array would be empty. -/
structure EthDictionaryTxConditions where
  to_ : Option (List (Option String)) := none
  from_ : Option (List String) := none
  function : Option (List String) := none
deriving Repr, DecidableEq

/-- `callFilterToDictionaryCondition(filter, dsOptions)`. The source guards
the `filter.to` handling with `if (!optionsAddresses)`; `optionsAddresses` is
the array returned by `extractOptionAddresses` and an array is always truthy,
so that branch never runs and `toArray` stays empty, while the else-if branch
only logs the conflict warning. -/
def callFilterToDictionaryCondition (functionToSighash : String → String)
    (queryAddressLimit : Nat) (filter : SubqlHandlerFilter)
    (dsOptions : Option SubqlEthereumProcessorOptions) : EthDictionaryTxConditions :=
  let fromArray : List String :=
    if Js.strTruthy filter.from_ then [Js.toLowerCase (filter.from_.getD "")] else []
  let optionsAddresses := extractOptionAddresses queryAddressLimit (.single dsOptions)
  let toArray : List (Option String) :=
    if ¬ Js.arrayTruthy optionsAddresses then
      if Js.strTruthy (filter.to_.getD none) then
        [some (Js.toLowerCase ((filter.to_.getD none).getD ""))]
      else if filter.to_ = some none then [none]
      else []
    else []
  let funcArray : List String :=
    if Js.strTruthy filter.function then [functionToSighash (filter.function.getD "")]
    else []
  { to_ := if toArray.length ≠ 0 then some toArray else none
    from_ := if fromArray.length ≠ 0 then some fromArray else none
    function := if funcArray.length ≠ 0 then some funcArray else none }

/-- `EthDictionaryLogConditions`: the `address` key is always written; each
`topicsN` key exists only when the loop initialized it. -/
structure EthDictionaryLogConditions where
  address : List String := []
  topics0 : Option (List String) := none
  topics1 : Option (List String) := none
  topics2 : Option (List String) := none
  topics3 : Option (List String) := none
deriving Repr, DecidableEq

/-- One iteration of the topics loop of `eventFilterToDictionaryCondition`:
within the first `min(length, 4)` slots, a falsy topic leaves the key absent,
the literal `!null` stores the empty array, and any other topic stores its
hashed form. -/
def topicField (eventToTopic : String → String) (topics : List (Option String))
    (i : Nat) : Option (List String) :=
  if i < min topics.length 4 then
    match (topics[i]?).getD none with
    | none => none
    | some t =>
      if t = "" then none
      else if t = "!null" then some []
      else some [eventToTopic t]
  else none

/-- `eventFilterToDictionaryCondition(filter, dsOptions)`: set `address` from
the data-source options and fill `topics0`–`topics3` from the filter. -/
def eventFilterToDictionaryCondition (eventToTopic : String → String)
    (queryAddressLimit : Nat) (filter : SubqlHandlerFilter)
    (dsOptions : DsOptionsArg) : EthDictionaryLogConditions :=
  let address := extractOptionAddresses queryAddressLimit dsOptions
  match filter.topics with
  | none => { address := address }
  | some ts =>
    { address := address
      topics0 := topicField eventToTopic ts 0
      topics1 := topicField eventToTopic ts 1
      topics2 := topicField eventToTopic ts 2
      topics3 := topicField eventToTopic ts 3 }

/-- `EthereumHandlerKind`. -/
inductive EthereumHandlerKind where
  | Block
  | Call
  | Event
deriving Repr, DecidableEq

/-- A mapping handler: its kind and optional filter object. -/
structure SubqlHandler where
  kind : EthereumHandlerKind
  filter : Option SubqlHandlerFilter := none
deriving Repr, DecidableEq

/-- `ds.mapping`, restricted to the handler list the builder iterates. -/
structure SubqlMapping where
  handlers : List SubqlHandler
deriving Repr, DecidableEq

/-- `GroupedEthereumProjectDs`: options, optional grouped options and the
mapping. -/
structure GroupedEthereumProjectDs where
  options : Option SubqlEthereumProcessorOptions := none
  groupedOptions : Option (List SubqlEthereumProcessorOptions) := none
  mapping : SubqlMapping
deriving Repr, DecidableEq

/-- `EthDictionaryV2QueryEntry`: `none` models a deleted key, `some []` a key
holding an empty array (the early returns skip the delete cleanup). -/
structure EthDictionaryV2QueryEntry where
  logs : Option (List EthDictionaryLogConditions) := none
  transactions : Option (List EthDictionaryTxConditions) := none
deriving Repr, DecidableEq

/-- One handler iteration of `buildDictionaryV2QueryEntry`: `none` signals
the early `return dictionaryConditions` (missing filter or Block handler);
otherwise the updated accumulated `(logs, transactions)` conditions. -/
def handlerStep (eventToTopic functionToSighash : String → String)
    (queryAddressLimit : Nat) (ds : GroupedEthereumProjectDs)
    (handler : SubqlHandler)
    (acc : List EthDictionaryLogConditions × List EthDictionaryTxConditions) :
    Option (List EthDictionaryLogConditions × List EthDictionaryTxConditions) :=
  match handler.filter with
  | none => none
  | some filter =>
    match handler.kind with
    | .Block => none
    | .Call =>
      if filter.from_.isSome ∨ filter.to_.isSome ∨ Js.strTruthy filter.function then
        some (acc.1, acc.2 ++
          [callFilterToDictionaryCondition functionToSighash queryAddressLimit filter
            ds.options])
      else some acc
    | .Event =>
      match ds.groupedOptions with
      | some groupedOptions =>
        some (acc.1 ++
          [eventFilterToDictionaryCondition eventToTopic queryAddressLimit filter
            (.grouped groupedOptions)], acc.2)
      | none =>
        if Js.strTruthy (ds.options.bind (fun o => o.address)) ∨ filter.topics.isSome then
          some (acc.1 ++
            [eventFilterToDictionaryCondition eventToTopic queryAddressLimit filter
              (.single ds.options)], acc.2)
        else some acc

/-- The inner `for (const handler of ds.mapping.handlers)` loop; `Sum.inl`
carries the conditions of an early return, `Sum.inr` a completed pass. -/
def handlersLoop (eventToTopic functionToSighash : String → String)
    (queryAddressLimit : Nat) (ds : GroupedEthereumProjectDs) :
    List SubqlHandler →
    List EthDictionaryLogConditions × List EthDictionaryTxConditions →
    (List EthDictionaryLogConditions × List EthDictionaryTxConditions) ⊕
      (List EthDictionaryLogConditions × List EthDictionaryTxConditions)
  | [], acc => .inr acc
  | handler :: rest, acc =>
    match handlerStep eventToTopic functionToSighash queryAddressLimit ds handler acc with
    | none => .inl acc
    | some nextAcc =>
      handlersLoop eventToTopic functionToSighash queryAddressLimit ds rest nextAcc

/-- The outer `for (const ds of dataSources)` loop. -/
def dsLoop (eventToTopic functionToSighash : String → String)
    (queryAddressLimit : Nat) :
    List GroupedEthereumProjectDs →
    List EthDictionaryLogConditions × List EthDictionaryTxConditions →
    (List EthDictionaryLogConditions × List EthDictionaryTxConditions) ⊕
      (List EthDictionaryLogConditions × List EthDictionaryTxConditions)
  | [], acc => .inr acc
  | ds :: rest, acc =>
    match handlersLoop eventToTopic functionToSighash queryAddressLimit ds
        ds.mapping.handlers acc with
    | .inl earlyAcc => .inl earlyAcc
    | .inr nextAcc => dsLoop eventToTopic functionToSighash queryAddressLimit rest nextAcc

/-- `buildDictionaryV2QueryEntry(dataSources)`: run the loops; an early
return surfaces the accumulated conditions as-is (both keys kept), a normal
exit deletes the keys whose condition lists are empty. There is no
deduplication — the `uniqBy` call is commented out behind a TODO. -/
def buildDictionaryV2QueryEntry (eventToTopic functionToSighash : String → String)
    (queryAddressLimit : Nat) (dataSources : List GroupedEthereumProjectDs) :
    EthDictionaryV2QueryEntry :=
  match dsLoop eventToTopic functionToSighash queryAddressLimit dataSources ([], []) with
  | .inl acc => { logs := some acc.1, transactions := some acc.2 }
  | .inr acc =>
    { logs := if acc.1.length = 0 then none else some acc.1
      transactions := if acc.2.length = 0 then none else some acc.2 }

/-- An entry with no conditions: its `logs` and `transactions` keys are
absent or hold empty arrays. -/
def isEmptyEntry (e : EthDictionaryV2QueryEntry) : Prop :=
  e.logs.getD [] = [] ∧ e.transactions.getD [] = []

instance (e : EthDictionaryV2QueryEntry) : Decidable (isEmptyEntry e) :=
  inferInstanceAs (Decidable (_ = _ ∧ _ = _))

/-- A data source whose Call handler precedes a Block handler. -/
def dsCallThenBlock : GroupedEthereumProjectDs :=
  { options := none
    groupedOptions := none
    mapping := { handlers :=
      [ { kind := .Call, filter := some { function := some "approve(address,uint256)" } }
      , { kind := .Block, filter := some {} } ] } }

/-- The data source of the repository's own test `should unique QueryEntry
for duplicate dataSources`: two identical Event handlers and two identical
Call handlers. -/
def dsDup : GroupedEthereumProjectDs :=
  { options := some
      { abi := some "erc20"
        address := some "0x7ceB23fD6bC0adD59E62ac25578270cFf1b9f619" }
    groupedOptions := none
    mapping := { handlers :=
      [ { kind := .Event
          filter := some { topics := some [some "Transfer(address, address, uint256)"] } }
      , { kind := .Event
          filter := some { topics := some [some "Transfer(address, address, uint256)"] } }
      , { kind := .Call
          filter := some { from_ := some "mockAddress"
                           function := some "setminimumStakingAmount(uint256 amount)" } }
      , { kind := .Call
          filter := some { from_ := some "mockAddress"
                           function := some "setminimumStakingAmount(uint256 amount)" } } ] } }

/-- The log condition `dsDup` produces (with the identity in place of the
keccak topic hash). -/
def dupLogCondition : EthDictionaryLogConditions :=
  { address := ["0x7ceb23fd6bc0add59e62ac25578270cff1b9f619"]
    topics0 := some ["Transfer(address, address, uint256)"] }

/-- The transaction condition `dsDup` produces (with the identity in place of
the selector hash). -/
def dupTxCondition : EthDictionaryTxConditions :=
  { from_ := some ["mockaddress"]
    function := some ["setminimumStakingAmount(uint256 amount)"] }

end EthDictionaryV2

namespace DictionaryV1

/-- The `_metadata` result consulted by the v1 dictionary client. -/
structure DictionaryV1Metadata where
  lastProcessedHeight : Nat
  startHeight : Nat := 0
  genesisHash : String := ""
deriving Repr, DecidableEq

/-- The node configuration fields used by `getQueryEndBlock`. -/
structure NodeConfig where
  dictionaryQuerySize : Nat
deriving Repr, DecidableEq

/-- The `DictionaryV1` service state used by `getQueryEndBlock`: the cached
metadata (undefined until `initMetadata` succeeds) and the node config. -/
structure DictionaryV1State where
  _metadata : Option DictionaryV1Metadata
  nodeConfig : NodeConfig
deriving Repr, DecidableEq

/-- The private `metadata` getter: throws until `_metadata` is populated. -/
def metadataGet (s : DictionaryV1State) : Except String DictionaryV1Metadata :=
  match s._metadata with
  | none => .error "dictionary _metadata not initialized"
  | some m => .ok m

/-- `getQueryEndBlock(startBlockHeight, apiFinalizedHeight)`:
`Math.min(startBlockHeight + dictionaryQuerySize, apiFinalizedHeight,
metadata.lastProcessedHeight)`, propagating the getter failure. -/
def getQueryEndBlock (s : DictionaryV1State)
    (startBlockHeight apiFinalizedHeight : Nat) : Except String Nat :=
  (metadataGet s).map (fun m =>
    min (min (startBlockHeight + s.nodeConfig.dictionaryQuerySize) apiFinalizedHeight)
      m.lastProcessedHeight)

end DictionaryV1

namespace Web

/-- What `getUrl` hands back for one attempt: status, headers and body. -/
structure GetUrlResponse where
  statusCode : Nat
  headers : List (String × String)
  body : String
deriving Repr, DecidableEq

/-- One attempt of `getUrl` can resolve, reject with a response attached to
the error (e.g. the rate-limited throw), or reject with no response at all
(a connection-level failure). -/
inductive GetUrlOutcome where
  | success (r : GetUrlResponse)
  | errorWithResponse (r : GetUrlResponse)
  | errorNoResponse
deriving Repr, DecidableEq

/-- The result of `_fetchData`: a resolved body (null on a 304 when allowed)
or one of its `SERVER_ERROR` throws. -/
inductive FetchResult where
  | ok (body : Option String)
  | serverError (reason : String)
deriving Repr, DecidableEq

/-- Case-sensitive lookup of a response header (the source reads the
already-lowercased `response.headers.location` and `retry-after` keys). -/
def headerLookup (headers : List (String × String)) (key : String) : Option String :=
  (headers.find? (fun p => p.1 = key)).map (fun p => p.2)

/-- `location.match(/^https:/)`: the location starts with the literal
`https:`. -/
def matchesHttps (location : String) : Bool :=
  location.data.take 6 = "https:".data

/-- The parameters `_fetchData` fixes before entering its attempt loop. The
`script` assigns each attempt index its `getUrl` outcome; `processFunc`
failures carry their `throttleRetry` flag. -/
structure FetchParams where
  method : String
  errorPassThrough : Bool := false
  allow304 : Bool := false
  throttleCallback : Nat → Bool := fun _ => true
  processFunc : Option (Option String → Except Bool String) := none
  script : Nat → GetUrlOutcome
  attemptLimit : Nat := 12

/-- The tail of one attempt after the redirect/429 handling: apply the 304
rule, raise `bad response` on a non-2xx status unless `errorPassThrough`,
then run the processor. `Sum.inl ()` is the processor's throttle-retry
signal (its `attempt < attemptLimit` conjunct always holds inside the loop),
which sends the caller into the next attempt. -/
def processResponse (p : FetchParams) (attempt : Nat) (r : GetUrlResponse) :
    Unit ⊕ FetchResult :=
  let body : Option String :=
    if p.allow304 ∧ r.statusCode = 304 then none else some r.body
  if ¬ (p.allow304 ∧ r.statusCode = 304) ∧ ¬ p.errorPassThrough ∧
      (r.statusCode < 200 ∨ 300 ≤ r.statusCode) then
    .inr (.serverError "bad response")
  else
    match p.processFunc with
    | none => .inr (.ok body)
    | some f =>
      match f body with
      | .ok result => .inr (.ok (some result))
      | .error throttleRetry =>
        if throttleRetry ∧ p.throttleCallback attempt then .inl ()
        else .inr (.serverError "processing response error")

/-- The `for (let attempt = 0; attempt < attemptLimit; attempt++)` loop of
`_fetchData`, with the fuel counting the remaining attempts and the trace
recording every URL handed to `getUrl`. A 301/302 with a `https:` location on
a GET swaps the URL and continues; a 429 before the last attempt stalls and
continues when the throttle callback allows; every other path falls through
to `processResponse`. Exhausted fuel is the closing `failed response` throw. -/
def fetchAttempts (p : FetchParams) :
    Nat → String → List String → List String × FetchResult
  | 0, _, trace => (trace, .serverError "failed response")
  | fuel + 1, url, trace =>
    let attempt := p.attemptLimit - (fuel + 1)
    let trace1 := trace ++ [url]
    match p.script attempt with
    | .errorNoResponse => (trace1, .serverError "missing response")
    | .errorWithResponse r =>
      match processResponse p attempt r with
      | .inl _ => fetchAttempts p fuel url trace1
      | .inr result => (trace1, result)
    | .success r =>
      if r.statusCode = 301 ∨ r.statusCode = 302 then
        if p.method = "GET" ∧
            matchesHttps ((headerLookup r.headers "location").getD "") then
          fetchAttempts p fuel ((headerLookup r.headers "location").getD "") trace1
        else
          match processResponse p attempt r with
          | .inl _ => fetchAttempts p fuel url trace1
          | .inr result => (trace1, result)
      else if r.statusCode = 429 then
        if attempt = p.attemptLimit - 1 then
          match processResponse p attempt r with
          | .inl _ => fetchAttempts p fuel url trace1
          | .inr result => (trace1, result)
        else if p.throttleCallback attempt then
          fetchAttempts p fuel url trace1
        else
          match processResponse p attempt r with
          | .inl _ => fetchAttempts p fuel url trace1
          | .inr result => (trace1, result)
      else
        match processResponse p attempt r with
        | .inl _ => fetchAttempts p fuel url trace1
        | .inr result => (trace1, result)

/-- `_fetchData(connection, body, processFunc)` restricted to its attempt
loop: run `attemptLimit` attempts from the initial URL, reporting the URLs
fetched and the outcome. -/
def _fetchData (p : FetchParams) (url : String) : List String × FetchResult :=
  fetchAttempts p p.attemptLimit url []

/-- The number of URL switches along a fetch trace — each one is a followed
redirect. -/
def urlChanges : List String → Nat
  | a :: b :: rest => (if a = b then 0 else 1) + urlChanges (b :: rest)
  | _ => 0

/-- A server script that answers two consecutive `https:` redirects before
succeeding. -/
def scriptTwoRedirects : Nat → GetUrlOutcome
  | 0 => .success ⟨301, [("location", "https://a.example")], ""⟩
  | 1 => .success ⟨301, [("location", "https://b.example")], ""⟩
  | 2 => .success ⟨200, [], "ok"⟩
  | _ => .errorNoResponse

/-- GET parameters running `scriptTwoRedirects` with the default attempt
limit. -/
def paramsTwoRedirects : FetchParams :=
  { method := "GET", script := scriptTwoRedirects, attemptLimit := 12 }

end Web

namespace ApiEthereum

/-- One datasource asset entry: the file path behind an ABI name. -/
structure DsAssetFile where
  file : String
deriving Repr, DecidableEq

/-- The datasource options consulted by the parsers. -/
structure DsOptions where
  abi : Option String := none
  address : Option String := none
deriving Repr, DecidableEq

/-- `RuntimeDataSourceV0_2_0` restricted to the fields the parsers touch:
optional options and the optional `assets` map (entry order preserved). -/
structure RuntimeDataSource where
  options : Option DsOptions := none
  assets : Option (List (String × DsAssetFile)) := none
deriving Repr, DecidableEq

/-- The `for (const [name, { file }] of Object.entries(ds.assets))` loop of
`loadAssets`: read each file, failing on the first unreadable one. The
filesystem is the `readFile` parameter. -/
def loadAssetsLoop (readFile : String → Except Unit String) :
    List (String × DsAssetFile) → Except String (List (String × String))
  | [] => .ok []
  | (name, asset) :: rest =>
    match readFile asset.file with
    | .error _ => .error ("Failed to load datasource asset " ++ asset.file)
    | .ok content =>
      match loadAssetsLoop readFile rest with
      | .error e => .error e
      | .ok res => .ok ((name, content) :: res)

/-- `loadAssets(ds)`: the empty record when `ds.assets` is undefined, else
the loop over its entries. -/
def loadAssets (readFile : String → Except Unit String) (ds : RuntimeDataSource) :
    Except String (List (String × String)) :=
  match ds.assets with
  | none => .ok []
  | some entries => loadAssetsLoop readFile entries

/-- `assets[abiName]`. -/
def lookupAsset (assets : List (String × String)) (abiName : String) : Option String :=
  (assets.find? (fun p => p.1 = abiName)).map (fun p => p.2)

/-- `buildInterface(abiName, assets)`: throw when the ABI name has no truthy
asset; otherwise answer the cached interface, or parse the asset (the
`JSON.parse` + artifact unwrapping + `new Interface(...)` pipeline is the
`parseAbi` parameter), cache it and answer it. The updated cache is returned
alongside because the source mutates `this.contractInterfaces`. -/
def buildInterface {Iface : Type} (parseAbi : String → Except Unit Iface)
    (contractInterfaces : List (String × Iface)) (abiName : String)
    (assets : List (String × String)) :
    Except String (Iface × List (String × Iface)) :=
  if ¬ Js.strTruthy (lookupAsset assets abiName) then
    .error ("ABI named " ++ abiName ++ " not referenced in assets")
  else
    match (contractInterfaces.find? (fun p => p.1 = abiName)).map (fun p => p.2) with
    | some iface => .ok (iface, contractInterfaces)
    | none =>
      match parseAbi ((lookupAsset assets abiName).getD "") with
      | .error _ => .error "ABI is invalid"
      | .ok iface => .ok (iface, contractInterfaces ++ [(abiName, iface)])

/-- An `EthereumLog`, with `args` attached only after a successful decode. -/
structure EthereumLog (Args : Type) where
  address : String
  topics : List String
  data : String
  blockNumber : Nat
  transactionHash : String
  logIndex : Nat
  args : Option Args := none

/-- An `EthereumTransaction`, with `args` attached only after a successful
decode. -/
structure EthereumTransaction (Args : Type) where
  hash : String
  input : String
  from_ : String
  to_ : Option String := none
  blockNumber : Nat
  args : Option Args := none

/-- The `try` body of `parseLog`: return the log untouched when the
datasource declares no ABI; otherwise load assets, build the interface and
decode. A thrown error carries the interface cache as it stood at the throw
point, because the source mutates the cache in place before the caller's
`catch` runs. -/
def parseLogTry {Iface Args : Type} (readFile : String → Except Unit String)
    (parseAbi : String → Except Unit Iface)
    (ifaceParseLogArgs : Iface → EthereumLog Args → Except Unit Args)
    (contractInterfaces : List (String × Iface))
    (log : EthereumLog Args) (ds : RuntimeDataSource) :
    Except (List (String × Iface)) (EthereumLog Args × List (String × Iface)) :=
  if ¬ Js.strTruthy (ds.options.bind (fun o => o.abi)) then
    .ok (log, contractInterfaces)
  else
    match loadAssets readFile ds with
    | .error _ => .error contractInterfaces
    | .ok assets =>
      match buildInterface parseAbi contractInterfaces
          ((ds.options.bind (fun o => o.abi)).getD "") assets with
      | .error _ => .error contractInterfaces
      | .ok (iface, cache) =>
        match ifaceParseLogArgs iface log with
        | .error _ => .error cache
        | .ok args => .ok ({ log with args := some args }, cache)

/-- `parseLog(log, ds)`: the `catch` swallows every failure of the body and
returns the original log. -/
def parseLog {Iface Args : Type} (readFile : String → Except Unit String)
    (parseAbi : String → Except Unit Iface)
    (ifaceParseLogArgs : Iface → EthereumLog Args → Except Unit Args)
    (contractInterfaces : List (String × Iface))
    (log : EthereumLog Args) (ds : RuntimeDataSource) :
    EthereumLog Args × List (String × Iface) :=
  match parseLogTry readFile parseAbi ifaceParseLogArgs contractInterfaces log ds with
  | .ok r => r
  | .error cache => (log, cache)

/-- The `try` body of `parseTransaction`: like `parseLog`, but looking the
function up by the 4-byte selector of the input (`hexDataSlice`) and decoding
the calldata. -/
def parseTransactionTry {Iface Func Args : Type}
    (readFile : String → Except Unit String)
    (parseAbi : String → Except Unit Iface)
    (hexDataSlice4 : String → String)
    (getFunction : Iface → String → Except Unit Func)
    (decodeFunctionData : Iface → Func → String → Except Unit Args)
    (contractInterfaces : List (String × Iface))
    (transaction : EthereumTransaction Args) (ds : RuntimeDataSource) :
    Except (List (String × Iface))
      (EthereumTransaction Args × List (String × Iface)) :=
  if ¬ Js.strTruthy (ds.options.bind (fun o => o.abi)) then
    .ok (transaction, contractInterfaces)
  else
    match loadAssets readFile ds with
    | .error _ => .error contractInterfaces
    | .ok assets =>
      match buildInterface parseAbi contractInterfaces
          ((ds.options.bind (fun o => o.abi)).getD "") assets with
      | .error _ => .error contractInterfaces
      | .ok (iface, cache) =>
        match getFunction iface (hexDataSlice4 transaction.input) with
        | .error _ => .error cache
        | .ok fn =>
          match decodeFunctionData iface fn transaction.input with
          | .error _ => .error cache
          | .ok args => .ok ({ transaction with args := some args }, cache)

/-- `parseTransaction(transaction, ds)`: the `catch` swallows every failure
of the body and returns the original transaction. -/
def parseTransaction {Iface Func Args : Type}
    (readFile : String → Except Unit String)
    (parseAbi : String → Except Unit Iface)
    (hexDataSlice4 : String → String)
    (getFunction : Iface → String → Except Unit Func)
    (decodeFunctionData : Iface → Func → String → Except Unit Args)
    (contractInterfaces : List (String × Iface))
    (transaction : EthereumTransaction Args) (ds : RuntimeDataSource) :
    EthereumTransaction Args × List (String × Iface) :=
  match parseTransactionTry readFile parseAbi hexDataSlice4 getFunction
      decodeFunctionData contractInterfaces transaction ds with
  | .ok r => r
  | .error cache => (transaction, cache)

end ApiEthereum

/-! ## Theorems -/

namespace UnfinalizedBlocks

/-- C1: the claim says that whenever `processUnfinalizedBlocks` returns null
with finalized tip F, no record of height ≤ F remains. On `chainA` / `s0A`
(no fork, finalized tip 7, single record at height 5, last checked height 3)
the call returns null yet the record `(5, a5)` — of height 5 ≤ 7 — survives,
because `removeFinalized` only removes records when one sits at exactly the
finalized height. -/
theorem processUnfinalizedBlocks_null_keeps_low_record :
    hasForked chainA s0A = false ∧
    processUnfinalizedBlocks chainA none s0A =
      .ok (none,
        { unfinalizedBlocks := [(5, "a5")]
          finalizedHeader := ⟨7, "c7", "c6"⟩
          lastCheckedBlockHeight := some 7
          metadata := [("lastFinalizedVerifiedHeight", MetaVal.num 7),
                       ("unfinalizedBlocks", MetaVal.blocks [(5, "a5")])] }) ∧
    (5 ≤ s0A.finalizedHeader.number) := by
  refine ⟨rfl, rfl, by decide⟩

/-- C2: on `chainB` / `s0B` the source's `getLastCorrectFinalizedBlock`
returns the fallback `lastCheckedBlockHeight` (3) because every iteration
refetches the parent of the finalized header instead of walking further back,
while the specified walk finds the matching record at height 4. -/
theorem getLastCorrectFinalizedBlock_stuck_at_parent :
    getLastCorrectFinalizedBlock chainB s0B = some 3 ∧
    getLastCorrectFinalizedBlockSpec chainB s0B = some 4 ∧
    s0B.lastCheckedBlockHeight = some 3 ∧
    getLastCorrectFinalizedBlock chainB s0B ≠
      getLastCorrectFinalizedBlockSpec chainB s0B := by
  refine ⟨rfl, rfl, rfl, by decide⟩

/-- C3: `registerUnfinalizedBlock(height, hash, tx)` drops heights at or
below the finalized height leaving the state untouched, exits fatally when
the height is not the successor of the last recorded height, and otherwise
appends the pair and persists the list under the `unfinalizedBlocks` key. -/
theorem registerUnfinalizedBlock_cases (s : UBState) (blockNumber : Nat) (hash : String) :
    (blockNumber ≤ s.finalizedHeader.number →
      registerUnfinalizedBlock blockNumber hash s = .ok s) ∧
    (s.finalizedHeader.number < blockNumber →
      ∀ lastRec, s.unfinalizedBlocks.getLast? = some lastRec →
        lastRec.1 + 1 ≠ blockNumber →
        registerUnfinalizedBlock blockNumber hash s = .fatal) ∧
    (s.finalizedHeader.number < blockNumber →
      (s.unfinalizedBlocks = [] ∨
        (∃ lastRec, s.unfinalizedBlocks.getLast? = some lastRec ∧
          lastRec.1 + 1 = blockNumber)) →
      ∃ s', registerUnfinalizedBlock blockNumber hash s = .ok s' ∧
        s'.unfinalizedBlocks = s.unfinalizedBlocks ++ [(blockNumber, hash)] ∧
        s'.finalizedHeader = s.finalizedHeader ∧
        s'.lastCheckedBlockHeight = s.lastCheckedBlockHeight ∧
        s'.metadata = s.metadata ++
          [("unfinalizedBlocks",
            MetaVal.blocks (s.unfinalizedBlocks ++ [(blockNumber, hash)]))]) := by
  refine ⟨?_, ?_, ?_⟩
  · intro hle
    simp [registerUnfinalizedBlock, hle]
  · intro hgt lastRec hlast hne
    simp [registerUnfinalizedBlock, Nat.not_le.mpr hgt, hlast, hne]
  · intro hgt hseq
    refine ⟨saveUnfinalizedBlocks (s.unfinalizedBlocks ++ [(blockNumber, hash)])
        { s with unfinalizedBlocks := s.unfinalizedBlocks ++ [(blockNumber, hash)] },
      ?_, by simp [saveUnfinalizedBlocks], by simp [saveUnfinalizedBlocks],
      by simp [saveUnfinalizedBlocks], by simp [saveUnfinalizedBlocks]⟩
    rcases hseq with hnil | ⟨lastRec, hlast, heq⟩
    · simp [registerUnfinalizedBlock, Nat.not_le.mpr hgt, hnil]
    · simp [registerUnfinalizedBlock, Nat.not_le.mpr hgt, hlast, heq]

/-- Witness for C3's theorem at concrete states: height 4 is dropped at
finalized height 7; height 9 after last record 6 is fatal; height 9 after
last record 8 is appended and persisted. -/
theorem registerUnfinalizedBlock_cases_witness :
    registerUnfinalizedBlock 4 "h4" s0A = .ok s0A ∧
    registerUnfinalizedBlock 9 "h9"
      ⟨[(5, "a5"), (6, "x6")], ⟨7, "c7", "c6"⟩, some 3, []⟩ = .fatal ∧
    ∃ s', registerUnfinalizedBlock 9 "h9"
      ⟨[(8, "y8")], ⟨7, "c7", "c6"⟩, some 3, []⟩ = .ok s' ∧
      s'.unfinalizedBlocks = [(8, "y8"), (9, "h9")] := by
  refine ⟨(registerUnfinalizedBlock_cases s0A 4 "h4").1 (by decide),
    (registerUnfinalizedBlock_cases _ 9 "h9").2.1 (by decide) (6, "x6") (by decide)
      (by decide),
    ?_⟩
  obtain ⟨s', h1, h2, -⟩ :=
    (registerUnfinalizedBlock_cases ⟨[(8, "y8")], ⟨7, "c7", "c6"⟩, some 3, []⟩ 9 "h9").2.2
      (by decide) (Or.inr ⟨(8, "y8"), by decide, by decide⟩)
  exact ⟨s', h1, h2⟩

end UnfinalizedBlocks

namespace BatchProvider

/-- C4 counterexample: the claim says the first malformed (non-array)
response decrements the batch size and sets the status to determined, but a
non-array response rejects the batch through the early return and leaves the
provider in its initial `⟨1, testing⟩` state. -/
theorem runRequests_nonArray_state_unchanged :
    runRequests initialProviderState .nonArray = initialProviderState ∧
    runRequests initialProviderState .nonArray ≠ ⟨0, .determined⟩ ∧
    (runRequests initialProviderState .nonArray).batchSizeStatus ≠ .determined := by
  refine ⟨rfl, by decide, by decide⟩

/-- C4 (amended): the batch size starts at 1; a successful complete array
response while testing increments it; the first rejected fetch — including a
response array missing a request id, which throws during dispatch and lands
in the catch handler after the increment — decrements it and freezes the
status as determined; a non-array response changes nothing; and once the
status is determined `runRequests` never changes the state again. -/
theorem runRequests_batch_sizing (s : ProviderState) :
    initialProviderState = ⟨1, .testing⟩ ∧
    (s.batchSizeStatus = .testing →
      runRequests s .arrayComplete = ⟨s.batchSize + 1, .testing⟩) ∧
    (s.batchSizeStatus = .testing →
      runRequests s .fetchError = ⟨s.batchSize - 1, .determined⟩) ∧
    (s.batchSizeStatus = .testing →
      runRequests s .arrayMissingId = ⟨s.batchSize, .determined⟩) ∧
    runRequests s .nonArray = s ∧
    (s.batchSizeStatus = .determined → ∀ r, runRequests s r = s) := by
  refine ⟨rfl, ?_, ?_, ?_, rfl, ?_⟩
  · intro h
    simp [runRequests, h]
  · intro h
    simp [runRequests, catchBranch, h]
  · intro h
    simp [runRequests, catchBranch, h]
  · intro h r
    cases r <;> simp [runRequests, catchBranch, h]

/-- Witness for C4's amended theorem at the concrete state ⟨5, testing⟩ and
at a determined state. -/
theorem runRequests_batch_sizing_witness :
    runRequests ⟨5, .testing⟩ .arrayComplete = ⟨6, .testing⟩ ∧
    runRequests ⟨5, .testing⟩ .fetchError = ⟨4, .determined⟩ ∧
    runRequests ⟨5, .determined⟩ .arrayComplete = ⟨5, .determined⟩ := by
  refine ⟨(runRequests_batch_sizing ⟨5, .testing⟩).2.1 rfl,
    (runRequests_batch_sizing ⟨5, .testing⟩).2.2.1 rfl,
    (runRequests_batch_sizing ⟨5, .determined⟩).2.2.2.2.2 rfl .arrayComplete⟩

end BatchProvider

namespace EthDictionaryV2

/-- C5 counterexample: a Call handler precedes the Block handler, and the
query entry returned on the early Block return carries the transaction
condition accumulated so far, so the entry is not empty. -/
theorem buildEntry_block_after_call_not_empty :
    (dsCallThenBlock.mapping.handlers.any (fun h => h.kind = .Block)) = true ∧
    buildDictionaryV2QueryEntry id id 100 [dsCallThenBlock] =
      { logs := some []
        transactions := some [⟨none, none, some ["approve(address,uint256)"]⟩] } ∧
    ¬ isEmptyEntry (buildDictionaryV2QueryEntry id id 100 [dsCallThenBlock]) := by
  refine ⟨rfl, rfl, by decide⟩

/-- C5 (amended): `buildDictionaryV2QueryEntry` returns immediately on the
first Block handler with whatever conditions accumulated before it; hence
when the very first handler is a Block handler the entry is empty, whatever
follows it. -/
theorem buildEntry_block_first_empty (eventToTopic functionToSighash : String → String)
    (queryAddressLimit : Nat) (f : SubqlHandlerFilter)
    (ds : GroupedEthereumProjectDs) (rest : List GroupedEthereumProjectDs)
    (hs : List SubqlHandler)
    (hh : ds.mapping.handlers = { kind := .Block, filter := some f } :: hs) :
    buildDictionaryV2QueryEntry eventToTopic functionToSighash queryAddressLimit
      (ds :: rest) = { logs := some [], transactions := some [] } := by
  simp [buildDictionaryV2QueryEntry, dsLoop, handlersLoop, hh, handlerStep]

/-- Witness for C5's amended theorem: a Block-first data source yields the
entry with empty condition lists. -/
theorem buildEntry_block_first_empty_witness :
    buildDictionaryV2QueryEntry id id 100
      [{ options := none
         groupedOptions := none
         mapping := { handlers :=
           [ { kind := .Block, filter := some {} }
           , { kind := .Call, filter := some { function := some "f()" } } ] } }] =
      { logs := some [], transactions := some [] } :=
  buildEntry_block_first_empty id id 100 {} _ [] _ rfl

/-- C6 counterexample: with no `options.address` and `filter.to = 0xABC`, the
claim expects the `to` condition `[0xabc]`, but the source never sets `to`
(the `!optionsAddresses` guard tests an array, which is always truthy). -/
theorem callFilter_to_condition_dropped :
    (callFilterToDictionaryCondition id 100 { to_ := some (some "0xABC") } none).to_ =
      none ∧
    (none : Option (List (Option String))) ≠ some [some "0xabc"] := by
  refine ⟨rfl, by decide⟩

/-- C6 (amended): `callFilterToDictionaryCondition` never produces a `to`
condition — a `filter.to` value (or explicit null) only triggers the conflict
warning, whether or not the data source has `options.address` — and its
result does not depend on the data-source options at all. -/
theorem callFilter_never_sets_to (functionToSighash : String → String)
    (queryAddressLimit : Nat) (filter : SubqlHandlerFilter)
    (dsOptions : Option SubqlEthereumProcessorOptions) :
    (callFilterToDictionaryCondition functionToSighash queryAddressLimit filter
      dsOptions).to_ = none ∧
    callFilterToDictionaryCondition functionToSighash queryAddressLimit filter
      dsOptions =
      callFilterToDictionaryCondition functionToSighash queryAddressLimit filter
        none := by
  refine ⟨by simp [callFilterToDictionaryCondition, Js.arrayTruthy],
    by simp [callFilterToDictionaryCondition, Js.arrayTruthy]⟩

/-- C7: on the repository's own duplicate-handler test input the builder
emits the same log condition twice and the same transaction condition twice;
the test (and the commented-out `uniqBy` behind the `TODO, unique` marker)
expect one of each. -/
theorem buildEntry_duplicates_not_deduped :
    buildDictionaryV2QueryEntry id id 100 [dsDup] =
      { logs := some [dupLogCondition, dupLogCondition]
        transactions := some [dupTxCondition, dupTxCondition] } ∧
    ¬ ([dupLogCondition, dupLogCondition].Nodup) ∧
    ¬ ([dupTxCondition, dupTxCondition].Nodup) := by
  refine ⟨by decide, by decide, by decide⟩

end EthDictionaryV2

namespace DictionaryV1

/-- C8: with initialized metadata, `getQueryEndBlock(s, f)` equals
`min(s + dictionaryQuerySize, f, metadata.lastProcessedHeight)`. -/
theorem getQueryEndBlock_clamped (s : DictionaryV1State) (m : DictionaryV1Metadata)
    (startBlockHeight apiFinalizedHeight : Nat) (hm : s._metadata = some m) :
    getQueryEndBlock s startBlockHeight apiFinalizedHeight =
      .ok (min (startBlockHeight + s.nodeConfig.dictionaryQuerySize)
        (min apiFinalizedHeight m.lastProcessedHeight)) := by
  simp [getQueryEndBlock, metadataGet, hm, Except.map, min_assoc]

/-- Witness for C8's theorem: start 80, query size 30, finalized 100, last
processed 95 clamps to 95. -/
theorem getQueryEndBlock_clamped_witness :
    getQueryEndBlock ⟨some ⟨95, 0, ""⟩, ⟨30⟩⟩ 80 100 = .ok 95 := by
  simpa using getQueryEndBlock_clamped ⟨some ⟨95, 0, ""⟩, ⟨30⟩⟩ ⟨95, 0, ""⟩ 80 100 rfl

end DictionaryV1

namespace Web

/-- Appending one entry related to the current last element preserves a
`Chain'` over a fetch trace. -/
theorem chainSnoc {R : String → String → Prop} {l : List String} {a : String} (b : String)
    (h : List.Chain' R (l ++ [a])) (hr : R a b) :
    List.Chain' R ((l ++ [a]) ++ [b]) := by
  rw [List.chain'_append]
  refine ⟨h, List.chain'_singleton b, ?_⟩
  intro x hx y hy
  simp [List.getLast?_concat] at hx
  simp at hy
  subst hx; subst hy; exact hr

/-- Every attempt appends exactly one URL to the trace, so the trace grows by
at most the fuel. -/
theorem fetchAttempts_trace_length (p : FetchParams) :
    ∀ (fuel : Nat) (url : String) (trace : List String),
      (fetchAttempts p fuel url trace).1.length ≤ trace.length + fuel := by
  intro fuel
  induction fuel with
  | zero =>
    intro url trace
    simp [fetchAttempts]
  | succ n ih =>
    intro url trace
    simp only [fetchAttempts]
    repeat' split
    all_goals first
      | (simp only [List.length_append, List.length_singleton]; omega)
      | (refine le_trans (ih _ _) ?_
         simp only [List.length_append, List.length_singleton]; omega)

/-- Along the fetch trace, consecutive URLs are either equal (a retry) or the
later one was taken from a redirect, which requires the GET method and an
`https:` location. -/
theorem fetchAttempts_trace_chain (p : FetchParams) :
    ∀ (fuel : Nat) (url : String) (trace : List String),
      List.Chain' (fun a b => a = b ∨ (p.method = "GET" ∧ matchesHttps b = true))
        (trace ++ [url]) →
      List.Chain' (fun a b => a = b ∨ (p.method = "GET" ∧ matchesHttps b = true))
        (fetchAttempts p fuel url trace).1 := by
  intro fuel
  induction fuel with
  | zero =>
    intro url trace h
    simpa [fetchAttempts] using h.left_of_append
  | succ n ih =>
    intro url trace h
    simp only [fetchAttempts]
    repeat' split
    all_goals first
      | exact h
      | exact ih _ _ (chainSnoc _ h (Or.inl rfl))
      | exact ih _ _ (chainSnoc _ h (Or.inr (by assumption)))

/-- The redirect count of a trace is below its length. -/
theorem urlChanges_le : ∀ l : List String, urlChanges l ≤ l.length - 1
  | [] => by simp [urlChanges]
  | [_] => by simp [urlChanges]
  | a :: b :: rest => by
    have ih := urlChanges_le (b :: rest)
    simp only [urlChanges, List.length_cons] at ih ⊢
    split <;> omega

/-- C9 (amended): every URL switch in a `_fetchData` call comes from a
followed redirect, which requires the GET method and an `https:` location;
each followed redirect consumes one attempt, so a call follows at most
`attemptLimit − 1` redirects rather than at most one. -/
theorem fetchData_redirect_policy (p : FetchParams) (url : String) :
    List.Chain' (fun a b => a = b ∨ (p.method = "GET" ∧ matchesHttps b = true))
      (_fetchData p url).1 ∧
    (_fetchData p url).1.length ≤ p.attemptLimit ∧
    urlChanges (_fetchData p url).1 ≤ p.attemptLimit - 1 := by
  have h1 := fetchAttempts_trace_chain p p.attemptLimit url []
    (by simp)
  have h2 := fetchAttempts_trace_length p p.attemptLimit url []
  have h3 := urlChanges_le (fetchAttempts p p.attemptLimit url []).1
  simp only [List.length_nil, Nat.zero_add] at h2
  exact ⟨h1, h2, by simp only [_fetchData]; omega⟩

/-- C9 counterexample: on a GET whose server answers two consecutive
`https:` redirects before succeeding, `_fetchData` follows both — the trace
visits three URLs — contradicting the claim that a redirect is followed at
most once per call. -/
theorem fetchData_follows_two_redirects :
    _fetchData paramsTwoRedirects "http://u0.example" =
      (["http://u0.example", "https://a.example", "https://b.example"],
        .ok (some "ok")) ∧
    ¬ (urlChanges (_fetchData paramsTwoRedirects "http://u0.example").1 ≤ 1) := by
  refine ⟨rfl, by decide⟩

end Web

namespace ApiEthereum

/-- C10: `parseLog` and `parseTransaction` are total — every failure (no ABI,
unloadable asset, invalid ABI, undecodable data) is caught and the original
log or transaction is returned unchanged; the decoded `args` is attached
exactly when every step of the decode pipeline succeeds. -/
theorem parse_never_throws_and_preserves {Iface Func Args : Type}
    (readFile : String → Except Unit String)
    (parseAbi : String → Except Unit Iface)
    (ifaceParseLogArgs : Iface → EthereumLog Args → Except Unit Args)
    (hexDataSlice4 : String → String)
    (getFunction : Iface → String → Except Unit Func)
    (decodeFunctionData : Iface → Func → String → Except Unit Args)
    (contractInterfaces : List (String × Iface))
    (log : EthereumLog Args) (transaction : EthereumTransaction Args)
    (ds : RuntimeDataSource) :
    ((parseLog readFile parseAbi ifaceParseLogArgs contractInterfaces log ds).1 =
        log ∨
      ∃ assets iface cache args,
        loadAssets readFile ds = .ok assets ∧
        buildInterface parseAbi contractInterfaces
          ((ds.options.bind (fun o => o.abi)).getD "") assets = .ok (iface, cache) ∧
        ifaceParseLogArgs iface log = .ok args ∧
        (parseLog readFile parseAbi ifaceParseLogArgs contractInterfaces log ds).1 =
          { log with args := some args }) ∧
    ((parseTransaction readFile parseAbi hexDataSlice4 getFunction
        decodeFunctionData contractInterfaces transaction ds).1 = transaction ∨
      ∃ assets iface cache fn args,
        loadAssets readFile ds = .ok assets ∧
        buildInterface parseAbi contractInterfaces
          ((ds.options.bind (fun o => o.abi)).getD "") assets = .ok (iface, cache) ∧
        getFunction iface (hexDataSlice4 transaction.input) = .ok fn ∧
        decodeFunctionData iface fn transaction.input = .ok args ∧
        (parseTransaction readFile parseAbi hexDataSlice4 getFunction
          decodeFunctionData contractInterfaces transaction ds).1 =
          { transaction with args := some args }) := by
  constructor
  · cases h1 : Js.strTruthy (ds.options.bind fun o => o.abi) with
    | false => left; simp [parseLog, parseLogTry, h1]
    | true =>
      cases hla : loadAssets readFile ds with
      | error e => left; simp [parseLog, parseLogTry, h1, hla]
      | ok assets =>
        cases hbi : buildInterface parseAbi contractInterfaces
            ((ds.options.bind fun o => o.abi).getD "") assets with
        | error e => left; simp [parseLog, parseLogTry, h1, hla, hbi]
        | ok pr =>
          obtain ⟨iface, cache⟩ := pr
          cases hpl : ifaceParseLogArgs iface log with
          | error e => left; simp [parseLog, parseLogTry, h1, hla, hbi, hpl]
          | ok args =>
            right
            exact ⟨assets, iface, cache, args, rfl, hbi, hpl, by
              simp [parseLog, parseLogTry, h1, hla, hbi, hpl]⟩
  · cases h1 : Js.strTruthy (ds.options.bind fun o => o.abi) with
    | false => left; simp [parseTransaction, parseTransactionTry, h1]
    | true =>
      cases hla : loadAssets readFile ds with
      | error e => left; simp [parseTransaction, parseTransactionTry, h1, hla]
      | ok assets =>
        cases hbi : buildInterface parseAbi contractInterfaces
            ((ds.options.bind fun o => o.abi).getD "") assets with
        | error e => left; simp [parseTransaction, parseTransactionTry, h1, hla, hbi]
        | ok pr =>
          obtain ⟨iface, cache⟩ := pr
          cases hgf : getFunction iface (hexDataSlice4 transaction.input) with
          | error e =>
            left; simp [parseTransaction, parseTransactionTry, h1, hla, hbi, hgf]
          | ok fn =>
            cases hdec : decodeFunctionData iface fn transaction.input with
            | error e =>
              left
              simp [parseTransaction, parseTransactionTry, h1, hla, hbi, hgf, hdec]
            | ok args =>
              right
              exact ⟨assets, iface, cache, fn, args, rfl, hbi, hgf, hdec, by
                simp [parseTransaction, parseTransactionTry, h1, hla, hbi, hgf, hdec]⟩

end ApiEthereum
